import Mathlib

/-!
Verification of the blaze expression core: the time-unit normalizer of
`blaze/expr/datetime.py` and the safe scalar parser of
`blaze/expr/scalar/parser.py`.  Python strings are embedded as `List Char`.
-/

namespace Blz

/-- The canonical time units, the `units` list of `datetime.py`. -/
def units : List (List Char) :=
  ["year".data, "month".data, "week".data, "day".data, "hour".data,
   "minute".data, "second".data, "millisecond".data, "microsecond".data,
   "nanosecond".data]

/-- The `_unit_aliases` dict of `datetime.py`. -/
def unit_aliases : List (List Char × List Char) :=
  [("y".data, "year".data), ("w".data, "week".data), ("d".data, "day".data),
   ("date".data, "day".data), ("h".data, "hour".data),
   ("s".data, "second".data), ("ms".data, "millisecond".data),
   ("us".data, "microsecond".data), ("ns".data, "nanosecond".data)]

/-- Association-list lookup, embedding Python dict lookup on the constant tables. -/
def lookupA {α : Type} (m : List (List Char × α)) (k : List Char) : Option α :=
  (m.find? (fun p => p.1 == k)).map (fun p => p.2)

/-- Lookup in `_unit_aliases`. -/
def aliasLookup (k : List Char) : Option (List Char) := lookupA unit_aliases k

/-- The whitespace test of Python `str.strip()`. -/
def isSpace (c : Char) : Bool := c.isWhitespace

/-- Python `s.strip()`: drop leading and trailing whitespace. -/
def trim (l : List Char) : List Char :=
  ((l.dropWhile isSpace).reverse.dropWhile isSpace).reverse

/-- Python `s.lower().strip()` (ASCII lowering, which covers every token in the
    constant tables). -/
def lowerTrim (l : List Char) : List Char := trim (l.map Char.toLower)

/-- Python `s.rstrip('s')`: drop every trailing `'s'` character. -/
def rstripS (l : List Char) : List Char :=
  (l.reverse.dropWhile (fun c => c == 's')).reverse

/-- The exceptions `normalize_time_unit` can raise: the
    `ValueError("Do not understand time unit %s" % s)` carrying the current token,
    and the `IndexError` that `s[-1]` raises on an empty string. -/
inductive NormError
  | unitError (tok : List Char)
  | indexError
  deriving DecidableEq

theorem trim_length_le (l : List Char) : (trim l).length ≤ l.length := by
  unfold trim
  rw [List.length_reverse]
  calc ((l.dropWhile isSpace).reverse.dropWhile isSpace).length
      ≤ (l.dropWhile isSpace).reverse.length :=
        List.IsSuffix.length_le (List.dropWhile_suffix _)
    _ = (l.dropWhile isSpace).length := List.length_reverse _
    _ ≤ l.length := List.IsSuffix.length_le (List.dropWhile_suffix _)

theorem lowerTrim_length_le (l : List Char) : (lowerTrim l).length ≤ l.length := by
  unfold lowerTrim
  calc (trim (l.map Char.toLower)).length
      ≤ (l.map Char.toLower).length := trim_length_le _
    _ = l.length := List.length_map _ _

theorem rstripS_length_lt (l : List Char) (h : l.getLast? = some 's') :
    (rstripS l).length < l.length := by
  unfold rstripS
  have hrev : l.reverse.head? = some 's' := by rw [List.head?_reverse, h]
  obtain ⟨rest, hr⟩ : ∃ rest, l.reverse = 's' :: rest := by
    cases hx : l.reverse with
    | nil => rw [hx] at hrev; cases hrev
    | cons a t =>
        rw [hx] at hrev
        simp at hrev
        subst hrev
        exact ⟨t, rfl⟩
  rw [hr]
  have hstep : List.dropWhile (fun c => c == 's') ('s' :: rest)
      = List.dropWhile (fun c => c == 's') rest := by
    simp [List.dropWhile]
  rw [hstep, List.length_reverse]
  have hlen : l.length = rest.length + 1 := by
    have := congrArg List.length hr
    simpa using this
  rw [hlen]
  exact Nat.lt_succ_of_le (List.IsSuffix.length_le (List.dropWhile_suffix _))

/-- `normalize_time_unit` of `datetime.py`: lowercase and strip the token, try
    the canonical `units`, try `_unit_aliases`, then test `s[-1] == 's'`
    (an `IndexError` when the token is empty) and recurse on `s.rstrip('s')`;
    otherwise raise the unrecognized-unit `ValueError`. -/
def normalize_time_unit (s : List Char) : Except NormError (List Char) :=
  if lowerTrim s ∈ units then .ok (lowerTrim s)
  else
    match aliasLookup (lowerTrim s) with
    | some u => .ok u
    | none =>
      match hlast : (lowerTrim s).getLast? with
      | none => .error .indexError
      | some c =>
        if hc : c = 's' then normalize_time_unit (rstripS (lowerTrim s))
        else .error (.unitError (lowerTrim s))
termination_by s.length
decreasing_by
  subst hc
  exact Nat.lt_of_lt_of_le (rstripS_length_lt _ hlast) (lowerTrim_length_le s)

/-- Modelled from the spec: step 4 of the normalization algorithm, "strip exactly
    one trailing `s`".  The source instead calls `s.rstrip('s')`; this definition
    exists only to compare the step given in the spec with the behavior of the source. -/
def stripOneS (l : List Char) : List Char := l.dropLast

/-! ## The datetime accessor node model (`blaze/expr/datetime.py`) -/

/-- The concrete datashape values the datetime module assigns as `_dtype`. -/
inductive DType
  | date_
  | datetime_
  | time_
  | int32
  | int64
  deriving DecidableEq

/-- Tags for the `DateTime` accessor subclasses. -/
inductive DTKind
  | date
  | year
  | month
  | day
  | time
  | hour
  | minute
  | second
  | millisecond
  | microsecond
  | utcfromtimestamp
  deriving DecidableEq

/-- Expression values the datetime module builds.  `exprClass` stands for the
    class object `Expr` itself, which the `time` function of the source passes as a
    child (`return Time(Expr)`); `leaf` is any already-built child expression;
    `dt` is a `DateTime` accessor node wrapping its `_child`; `dtTruncate` is a
    `DateTimeTruncate` node with its `_child`, `measure` and `unit` slots. -/
inductive BExpr
  | exprClass
  | leaf (name : List Char)
  | dt (k : DTKind) (child : BExpr)
  | dtTruncate (child : BExpr) (measure : Int) (unit : List Char)
  deriving DecidableEq

/-- The fixed `_dtype` of each accessor subclass. -/
def DTKind.dtypeOf : DTKind → DType
  | .date => .date_
  | .year => .int32
  | .month => .int32
  | .day => .int32
  | .time => .time_
  | .hour => .int32
  | .minute => .int32
  | .second => .int32
  | .millisecond => .int64
  | .microsecond => .int64
  | .utcfromtimestamp => .datetime_

/-- `def date(expr): return Date(expr)` -/
def date (expr : BExpr) : BExpr := .dt .date expr

/-- `def year(expr): return Year(expr)` -/
def year (expr : BExpr) : BExpr := .dt .year expr

/-- `def month(expr): return Month(expr)` -/
def month (expr : BExpr) : BExpr := .dt .month expr

/-- `def day(expr): return Day(expr)` -/
def day (expr : BExpr) : BExpr := .dt .day expr

/-- `def time(expr): return Time(Expr)` — note the source passes the class
    `Expr`, not the argument `expr`. -/
def time (expr : BExpr) : BExpr := .dt .time .exprClass

/-- `def hour(expr): return Hour(expr)` -/
def hour (expr : BExpr) : BExpr := .dt .hour expr

/-- `def minute(expr): return Minute(expr)` -/
def minute (expr : BExpr) : BExpr := .dt .minute expr

/-- `def second(expr): return Second(expr)` -/
def second (expr : BExpr) : BExpr := .dt .second expr

/-- `def millisecond(expr): return Millisecond(expr)` -/
def millisecond (expr : BExpr) : BExpr := .dt .millisecond expr

/-- `def microsecond(expr): return Microsecond(expr)` -/
def microsecond (expr : BExpr) : BExpr := .dt .microsecond expr

/-- `def utcfromtimestamp(expr): return UTCFromTimestamp(expr)` -/
def utcfromtimestamp (expr : BExpr) : BExpr := .dt .utcfromtimestamp expr

/-- The `_dtype` property of `DateTimeTruncate`:
    `date_` when the index of "day" in `units` is at least the index of
    `self.unit`, else
    `datetime_`.  `list.index` raises `ValueError` on a missing entry, embedded
    as `none`; it is `List.findIdx?`, the first matching index. -/
def DateTimeTruncate_dtype (unit : List Char) : Option DType :=
  match List.findIdx? (fun v => v == "day".data) units,
        List.findIdx? (fun v => v == unit) units with
  | some di, some ui => some (if di ≥ ui then .date_ else .datetime_)
  | _, _ => none

/-! ## The safe scalar parser (`blaze/expr/scalar/parser.py`) -/

/-- Tags for the scalar operator classes the parser can hand out: the entries of
    `comparison_ops` plus the math operators found in the `numbers` module. -/
inductive COp
  | eqOp
  | neOp
  | ltOp
  | gtOp
  | leOp
  | geOp
  | andOp
  | orOp
  | negOp
  | addOp
  | mulOp
  | divOp
  | powOp
  | modOp
  | subOp
  | mathOp (name : List Char)
  deriving DecidableEq

/-- The binary-operator AST node kinds (`ast.BinOp.op`) that have generated
    visit methods. -/
inductive BOpK
  | addK
  | subK
  | multK
  | divK
  | powK
  | modK
  deriving DecidableEq

/-- Which class a binary operator node visit returns (`comparison_ops`). -/
def BOpK.cls : BOpK → COp
  | .addK => .addOp
  | .subK => .subOp
  | .multK => .mulOp
  | .divK => .divOp
  | .powK => .powOp
  | .modK => .modOp

/-- The comparison-operator AST node kinds with generated visit methods. -/
inductive CmpK
  | eqK
  | neK
  | ltK
  | gtK
  | leK
  | geK
  deriving DecidableEq

/-- Which class a comparison operator node visit returns (`comparison_ops`). -/
def CmpK.cls : CmpK → COp
  | .eqK => .eqOp
  | .neK => .neOp
  | .ltK => .ltOp
  | .gtK => .gtOp
  | .leK => .leOp
  | .geK => .geOp

/-- The unary-operator AST node kinds of `ast.UnaryOp`.  Only `USub` has a
    generated visit method. -/
inductive UOpK
  | uSubK
  | uAddK
  | notK
  | invertK
  deriving DecidableEq

/-- The Python values the parser computes: literal numbers and strings, the
    operator/constructor classes it hands out, `ScalarSymbol` leaves, applied
    nodes (a class called on arguments), and the empty dicts of `safe_scope`. -/
inductive Val
  | num (n : Int)
  | strv (s : List Char)
  | cls (t : COp)
  | sym (name ty : List Char)
  | app (t : COp) (args : List Val)
  | dict

/-- The exceptions the parser can raise: `ValueError("invalid name %r")`,
    `KeyError` from `self.dtypes[name]`, failed `assert` statements,
    `NotImplementedError` from `disallower`, and `TypeError` from calling a
    non-callable value. -/
inductive PErr
  | valueError (name : List Char)
  | keyError (name : List Char)
  | assertionError
  | notImplementedError
  | typeError
  deriving DecidableEq

/-- The Python `ast` nodes the parser can meet, restricted to expression mode.
    `call` keeps the pre-3.5 `ast.Call` shape the source reads: positional
    `args`, `keywords`, `starargs` and `kwargs`.  The nullary constructors at
    the end are the node kinds of the `disallowed` tuple. -/
inductive PyAST
  | num (n : Int)
  | strNode (s : List Char)
  | name (id : List Char)
  | binOp (left : PyAST) (op : BOpK) (right : PyAST)
  | unaryOp (op : UOpK) (operand : PyAST)
  | compare (left : PyAST) (ops : List CmpK) (comparators : List PyAST)
  | call (func : PyAST) (args : List PyAST) (keywords : List (List Char × PyAST))
      (starargs : Option PyAST) (kwargs : Option PyAST)
  | attributeNode (value : PyAST) (attr : List Char)
  | lambdaNode
  | ifExp
  | dictNode
  | setNode
  | listComp
  | setComp
  | dictComp
  | generatorExp
  | yieldNode

/-- Calling a computed value (`result(*args)` in the visitor): the operator and
    constructor classes are callable and build an applied node; every other
    value (numbers, strings, `ScalarSymbol` instances, dicts) raises
    `TypeError`. -/
def applyVal (f : Val) (args : List Val) : Except PErr Val :=
  match f with
  | .cls t => .ok (.app t args)
  | _ => .error .typeError

/-- `BlazeParser.visit` over `dtypes` (the `symbol_types` of the caller) and `scope`.

    * `visit_Num` / `visit_Str` return the literal.
    * `visit_Name` rejects a `__`-prefixed identifier, then tries `self.scope`
      and falls back to `ScalarSymbol(name, self.dtypes[name])`; a name in
      neither raises `KeyError`.
    * `visit_BinOp` and the single-comparison `visit_Compare` hand the operator
      class the two visited operands.
    * `visit_Compare` asserts exactly one operator and one comparator.
    * `visit_UnaryOp` on a `Num` literal folds to
      `-1 * isinstance(op, ast.USub) * operand.n`; on any other operand `USub`
      applies the `Neg` class, while the unhandled operator kinds visit to
      `None`, and calling `None` raises `TypeError` (after the operand visit).
    * `visit_Call` asserts at most one positional argument and no keyword,
      star or kwargs arguments, then visits the callee and the argument and
      calls the callee value.
    * the `disallowed` node kinds raise `NotImplementedError`. -/
def visit (dtypes : List (List Char × List Char)) (scope : List (List Char × Val)) :
    PyAST → Except PErr Val
  | .num n => .ok (.num n)
  | .strNode s => .ok (.strv s)
  | .name id =>
      if id.take 2 = ['_', '_'] then .error (.valueError id)
      else
        match lookupA scope id with
        | some v => .ok v
        | none =>
            match lookupA dtypes id with
            | some ty => .ok (.sym id ty)
            | none => .error (.keyError id)
  | .binOp l op r => do
      let lv ← visit dtypes scope l
      let rv ← visit dtypes scope r
      applyVal (.cls op.cls) [lv, rv]
  | .unaryOp op operand =>
      match operand with
      | .num n => .ok (.num (match op with | .uSubK => -n | _ => 0))
      | _ => do
          let v ← visit dtypes scope operand
          match op with
          | .uSubK => applyVal (.cls .negOp) [v]
          | _ => .error .typeError
  | .compare l ops comparators =>
      match ops, comparators with
      | [op], [c] => do
          let lv ← visit dtypes scope l
          let cv ← visit dtypes scope c
          applyVal (.cls op.cls) [lv, cv]
      | _, _ => .error .assertionError
  | .call func args keywords starargs kwargs =>
      if args.length ≤ 1 then
        match keywords with
        | _ :: _ => .error .assertionError
        | [] =>
            match starargs with
            | some _ => .error .assertionError
            | none =>
                match kwargs with
                | some _ => .error .assertionError
                | none =>
                    match args with
                    | [] => do
                        let fv ← visit dtypes scope func
                        applyVal fv []
                    | [a] => do
                        let fv ← visit dtypes scope func
                        let av ← visit dtypes scope a
                        applyVal fv [av]
                    | _ => .error .assertionError
      else .error .assertionError
  | .attributeNode _ _ => .error .notImplementedError
  | .lambdaNode => .error .notImplementedError
  | .ifExp => .error .notImplementedError
  | .dictNode => .error .notImplementedError
  | .setNode => .error .notImplementedError
  | .listComp => .error .notImplementedError
  | .setComp => .error .notImplementedError
  | .dictComp => .error .notImplementedError
  | .generatorExp => .error .notImplementedError
  | .yieldNode => .error .notImplementedError

/-- `safe_scope`: the two entries that empty out the builtin namespaces. -/
def safe_scope : List (List Char × Val) :=
  [("__builtins__".data, Val.dict), ("builtins".data, Val.dict)]

/-- Modelled from the spec: `math_operators`, the scalar classes collected from
    the `numbers` module (not part of the given sources) — "a trigonometric /
    elementwise scalar function" set, used as the fixed allowed-call scope.
    The claims proved about it never depend on its exact contents, only on
    which names are absent from it. -/
def math_operators : List (List Char × Val) :=
  [("sin".data, Val.cls (.mathOp "sin".data)),
   ("cos".data, Val.cls (.mathOp "cos".data)),
   ("tan".data, Val.cls (.mathOp "tan".data)),
   ("exp".data, Val.cls (.mathOp "exp".data)),
   ("log".data, Val.cls (.mathOp "log".data)),
   ("sqrt".data, Val.cls (.mathOp "sqrt".data)),
   ("isnan".data, Val.cls (.mathOp "isnan".data)),
   ("floor".data, Val.cls (.mathOp "floor".data)),
   ("ceil".data, Val.cls (.mathOp "ceil".data))]

/-- `merge(safe_scope, math_operators)`: the fixed scope `exprify` hands to
    `BlazeParser` (with `toolz.merge`, a later dict wins, so `math_operators`
    is looked up first; the key sets are disjoint anyway). -/
def fixed_scope : List (List Char × Val) := math_operators ++ safe_scope

/-! ## Step lemmas for `normalize_time_unit` -/

theorem norm_of_mem (s : List Char) (h : lowerTrim s ∈ units) :
    normalize_time_unit s = .ok (lowerTrim s) := by
  unfold normalize_time_unit
  rw [if_pos h]

theorem norm_of_alias (s v : List Char) (h1 : lowerTrim s ∉ units)
    (h2 : aliasLookup (lowerTrim s) = some v) :
    normalize_time_unit s = .ok v := by
  unfold normalize_time_unit
  rw [if_neg h1, h2]

theorem norm_of_strip (s : List Char) (h1 : lowerTrim s ∉ units)
    (h2 : aliasLookup (lowerTrim s) = none)
    (h3 : (lowerTrim s).getLast? = some 's') :
    normalize_time_unit s = normalize_time_unit (rstripS (lowerTrim s)) := by
  conv_lhs => rw [normalize_time_unit.eq_def]
  rw [if_neg h1, h2, h3]
  simp

theorem norm_of_empty (s : List Char) (h1 : lowerTrim s ∉ units)
    (h2 : aliasLookup (lowerTrim s) = none)
    (h3 : (lowerTrim s).getLast? = none) :
    normalize_time_unit s = .error .indexError := by
  unfold normalize_time_unit
  rw [if_neg h1, h2, h3]

theorem norm_of_fail (s : List Char) (c : Char) (h1 : lowerTrim s ∉ units)
    (h2 : aliasLookup (lowerTrim s) = none)
    (h3 : (lowerTrim s).getLast? = some c) (h4 : c ≠ 's') :
    normalize_time_unit s = .error (.unitError (lowerTrim s)) := by
  unfold normalize_time_unit
  rw [if_neg h1, h2, h3]
  simp [h4]

/-! ## Tokens that are all `'s'` characters -/

theorem dropWhile_replicate_of_neg {p : Char → Bool} {a : Char} (h : p a = false)
    (k : Nat) : List.dropWhile p (List.replicate k a) = List.replicate k a := by
  cases k with
  | zero => rfl
  | succ n => rw [List.replicate_succ, List.dropWhile_cons, h]; simp

theorem dropWhile_replicate_of_pos {p : Char → Bool} {a : Char} (h : p a = true) :
    ∀ k : Nat, List.dropWhile p (List.replicate k a) = [] := by
  intro k
  induction k with
  | zero => rfl
  | succ n ih => rw [List.replicate_succ, List.dropWhile_cons, h]; simpa using ih

theorem lowerTrim_replicate_s (k : Nat) :
    lowerTrim (List.replicate k 's') = List.replicate k 's' := by
  have hs : isSpace 's' = false := by decide
  have hlow : Char.toLower 's' = 's' := by decide
  unfold lowerTrim trim
  rw [List.map_replicate, hlow, dropWhile_replicate_of_neg hs, List.reverse_replicate,
    dropWhile_replicate_of_neg hs, List.reverse_replicate]

theorem rstripS_replicate (k : Nat) : rstripS (List.replicate k 's') = [] := by
  unfold rstripS
  rw [List.reverse_replicate, dropWhile_replicate_of_pos (by decide)]
  rfl

theorem getLast_replicate_s (n : Nat) :
    (List.replicate (n + 2) 's').getLast? = some 's' := by
  rw [List.getLast?_eq_head?_reverse, List.reverse_replicate, List.replicate_succ]
  rfl

theorem replicate_s_not_unit (n : Nat) : List.replicate (n + 2) 's' ∉ units := by
  intro h
  have hall : ∀ c ∈ List.replicate (n + 2) 's', c = 's' := fun c hc =>
    List.eq_of_mem_replicate hc
  simp only [units, List.mem_cons, List.not_mem_nil, or_false] at h
  rcases h with h | h | h | h | h | h | h | h | h | h
  · exact absurd (hall 'y' (by rw [h]; decide)) (by decide)
  · exact absurd (hall 'o' (by rw [h]; decide)) (by decide)
  · exact absurd (hall 'w' (by rw [h]; decide)) (by decide)
  · exact absurd (hall 'd' (by rw [h]; decide)) (by decide)
  · exact absurd (hall 'h' (by rw [h]; decide)) (by decide)
  · exact absurd (hall 'i' (by rw [h]; decide)) (by decide)
  · exact absurd (hall 'e' (by rw [h]; decide)) (by decide)
  · exact absurd (hall 'i' (by rw [h]; decide)) (by decide)
  · exact absurd (hall 'i' (by rw [h]; decide)) (by decide)
  · exact absurd (hall 'a' (by rw [h]; decide)) (by decide)

theorem replicate_s_alias_none (n : Nat) :
    aliasLookup (List.replicate (n + 2) 's') = none := by
  unfold aliasLookup lookupA
  have hfind : unit_aliases.find? (fun p => p.1 == List.replicate (n + 2) 's') = none := by
    rw [List.find?_eq_none]
    intro x hx
    simp only [unit_aliases, List.mem_cons, List.not_mem_nil, or_false] at hx
    have hlen : ∀ l : List Char, l = List.replicate (n + 2) 's' → l.length = n + 2 :=
      fun l hl => by rw [hl, List.length_replicate]
    rcases hx with rfl | rfl | rfl | rfl | rfl | rfl | rfl | rfl | rfl <;>
      simp only [beq_iff_eq] <;> intro he <;>
      first
      | (have hl := hlen _ he
         simp only [List.length_cons, List.length_nil] at hl
         omega)
      | exact absurd (List.eq_of_mem_replicate
          (by rw [← he]; decide : 'a' ∈ List.replicate (n + 2) 's')) (by decide)
      | exact absurd (List.eq_of_mem_replicate
          (by rw [← he]; decide : 'm' ∈ List.replicate (n + 2) 's')) (by decide)
      | exact absurd (List.eq_of_mem_replicate
          (by rw [← he]; decide : 'u' ∈ List.replicate (n + 2) 's')) (by decide)
      | exact absurd (List.eq_of_mem_replicate
          (by rw [← he]; decide : 'n' ∈ List.replicate (n + 2) 's')) (by decide)
  rw [hfind]
  rfl

end Blz

open Blz

/-! ## Claims -/

/-- C1, counterexample: the claim says every non-empty token of only `'s'`
    characters ends in a `UnitError`; in the code `"s"` instead hits the alias
    table and returns `"second"`, and `"ss"` ends in an `IndexError`, not a
    `UnitError`. -/
theorem C1_counterexample :
    normalize_time_unit "s".data = .ok "second".data ∧
    normalize_time_unit "ss".data = .error .indexError := by
  constructor
  · exact norm_of_alias _ _ (by decide) (by decide)
  · rw [norm_of_strip _ (by decide) (by decide) (by decide)]
    have h : rstripS (lowerTrim "ss".data) = [] := by decide
    rw [h]
    exact norm_of_empty _ (by decide) (by decide) (by decide)

/-- C1, amended: `normalize_time_unit` terminates on every token (the embedding
    is a total function; each recursive call strictly shrinks the token), but on
    tokens of only `'s'` characters it does not fail with a `UnitError`: a
    single `"s"` matches the alias table and returns `"second"`, and a token of
    two or more `'s'` characters terminates with an `IndexError` (indexing the
    empty string left by `rstrip('s')`). -/
theorem C1_all_s_behavior (n : Nat) :
    normalize_time_unit (List.replicate (n + 2) 's') = .error .indexError ∧
    normalize_time_unit "s".data = .ok "second".data := by
  constructor
  · have h1 : lowerTrim (List.replicate (n + 2) 's') ∉ units := by
      rw [lowerTrim_replicate_s]
      exact replicate_s_not_unit n
    have h2 : aliasLookup (lowerTrim (List.replicate (n + 2) 's')) = none := by
      rw [lowerTrim_replicate_s]
      exact replicate_s_alias_none n
    have h3 : (lowerTrim (List.replicate (n + 2) 's')).getLast? = some 's' := by
      rw [lowerTrim_replicate_s]
      exact getLast_replicate_s n
    rw [norm_of_strip _ h1 h2 h3, lowerTrim_replicate_s, rstripS_replicate]
    exact norm_of_empty _ (by decide) (by decide) (by decide)
  · exact norm_of_alias _ _ (by decide) (by decide)

/-- C2, counterexample: `"mss"` is lowercased/trimmed to itself, matches neither
    the canonical units nor the alias table, and ends in `'s'`, so per the claim
    exactly one `'s'` is stripped and the recursion continues on `"ms"`, which
    normalizes to `"millisecond"`.  The code instead strips all trailing `'s'`
    characters at once (`rstrip('s')`) and fails with the unrecognized-unit
    error on `"m"`. -/
theorem C2_counterexample :
    lowerTrim "mss".data ∉ units ∧
    aliasLookup (lowerTrim "mss".data) = none ∧
    (lowerTrim "mss".data).getLast? = some 's' ∧
    stripOneS (lowerTrim "mss".data) = "ms".data ∧
    normalize_time_unit "ms".data = .ok "millisecond".data ∧
    normalize_time_unit "mss".data = .error (.unitError "m".data) := by
  refine ⟨by decide, by decide, by decide, by decide,
    norm_of_alias _ _ (by decide) (by decide), ?_⟩
  rw [norm_of_strip _ (by decide) (by decide) (by decide)]
  have h : rstripS (lowerTrim "mss".data) = "m".data := by decide
  rw [h]
  exact norm_of_fail _ 'm' (by decide) (by decide) (by decide) (by decide)

/-- C2, amended: for every token that, after lowercasing and trimming, matches
    neither a canonical unit name nor the alias table but ends in `'s'`,
    `normalize_time_unit` strips ALL trailing `'s'` characters (`rstrip('s')`)
    and recurses on that shortened token. -/
theorem C2_strip_all (s : List Char) (h1 : lowerTrim s ∉ units)
    (h2 : aliasLookup (lowerTrim s) = none)
    (h3 : (lowerTrim s).getLast? = some 's') :
    normalize_time_unit s = normalize_time_unit (rstripS (lowerTrim s)) :=
  norm_of_strip s h1 h2 h3

/-- Witness for C2: the hypotheses hold at the token `"weekss"` and the code
    recurses on the result of `rstrip`. -/
theorem C2_strip_all_witness :
    lowerTrim "weekss".data ∉ units ∧
    normalize_time_unit "weekss".data
      = normalize_time_unit (rstripS (lowerTrim "weekss".data)) :=
  ⟨by decide, C2_strip_all "weekss".data (by decide) (by decide) (by decide)⟩

/-- C3, counterexample: the callee of a call IS resolved against the
    caller-supplied `symbol_types`: with `f` absent from the fixed scope but
    present in `symbol_types`, `visit_Name` synthesizes `ScalarSymbol("f", int64)`
    for the callee (third conjunct), and the call then fails with `TypeError`
    (first conjunct) instead of the `KeyError` produced when `f` is absent from
    `symbol_types` (second conjunct) — so the result depends on `symbol_types`. -/
theorem C3_counterexample :
    visit [("f".data, "int64".data), ("x".data, "int64".data)] fixed_scope
        (.call (.name "f".data) [.name "x".data] [] none none) = .error .typeError ∧
    visit [("x".data, "int64".data)] fixed_scope
        (.call (.name "f".data) [.name "x".data] [] none none)
      = .error (.keyError "f".data) ∧
    visit [("f".data, "int64".data), ("x".data, "int64".data)] fixed_scope
        (.name "f".data) = .ok (.sym "f".data "int64".data) :=
  ⟨rfl, rfl, rfl⟩

/-- C3, amended: the callee identifier of a call is resolved exactly like any
    identifier — first against the fixed scope, then against `symbol_types`,
    synthesizing a `ScalarSymbol` leaf; such a synthesized callee is not
    callable, so the call then fails with a `TypeError` after the argument is
    visited. -/
theorem C3_callee_falls_back (f ty : List Char)
    (dtypes : List (List Char × List Char)) (arg : PyAST) (v : Val)
    (hpre : f.take 2 ≠ ['_', '_'])
    (hsc : lookupA fixed_scope f = none)
    (hdt : lookupA dtypes f = some ty)
    (harg : visit dtypes fixed_scope arg = .ok v) :
    visit dtypes fixed_scope (.name f) = .ok (.sym f ty) ∧
    visit dtypes fixed_scope (.call (.name f) [arg] [] none none)
      = .error .typeError := by
  have hname : visit dtypes fixed_scope (.name f) = .ok (.sym f ty) := by
    simp only [visit, if_neg hpre, hsc, hdt]
  refine ⟨hname, ?_⟩
  have hstep : visit dtypes fixed_scope (.call (.name f) [arg] [] none none)
      = (do
          let fv ← visit dtypes fixed_scope (.name f)
          let av ← visit dtypes fixed_scope arg
          applyVal fv [av]) := rfl
  rw [hstep, hname, harg]
  rfl

/-- Witness for C3: concrete instantiation with `f : int64` in `symbol_types`
    and the literal `1` as argument. -/
theorem C3_callee_falls_back_witness :
    ("f".data.take 2 ≠ ['_', '_']) ∧
    lookupA fixed_scope "f".data = none ∧
    visit [("f".data, "int64".data)] fixed_scope
        (.call (.name "f".data) [.num 1] [] none none) = .error .typeError :=
  ⟨by decide, rfl,
    (C3_callee_falls_back "f".data "int64".data [("f".data, "int64".data)]
      (.num 1) (.num 1) (by decide) rfl (by decide) rfl).2⟩

/-- C4: ten of the eleven accessor constructor functions wrap exactly the child
    they are given, but `time` reads `return Time(Expr)` and wraps the class
    object `Expr` instead of its argument — evaluating the code at a symbol
    child shows the child is lost. -/
theorem C4_time_ignores_child :
    Blz.time (.leaf "t".data) = .dt .time .exprClass ∧
    Blz.time (.leaf "t".data) ≠ .dt .time (.leaf "t".data) ∧
    Blz.date (.leaf "t".data) = .dt .date (.leaf "t".data) ∧
    Blz.year (.leaf "t".data) = .dt .year (.leaf "t".data) ∧
    Blz.month (.leaf "t".data) = .dt .month (.leaf "t".data) ∧
    Blz.day (.leaf "t".data) = .dt .day (.leaf "t".data) ∧
    Blz.hour (.leaf "t".data) = .dt .hour (.leaf "t".data) ∧
    Blz.minute (.leaf "t".data) = .dt .minute (.leaf "t".data) ∧
    Blz.second (.leaf "t".data) = .dt .second (.leaf "t".data) ∧
    Blz.millisecond (.leaf "t".data) = .dt .millisecond (.leaf "t".data) ∧
    Blz.microsecond (.leaf "t".data) = .dt .microsecond (.leaf "t".data) ∧
    Blz.utcfromtimestamp (.leaf "t".data) = .dt .utcfromtimestamp (.leaf "t".data) := by
  decide

/-- C5: `DateTimeTruncate._dtype` is `date_` exactly when
    the index of "day" in `units` is at least the index of the unit — "day"
    sits at index 3 of the
    canonical ordering, a canonical unit at index `i` yields the date type iff
    `i ≤ 3`, `"week"` yields the date type and `"minute"` the datetime type. -/
theorem C5_truncate_dtype (u : List Char) (i : Nat)
    (h : List.findIdx? (fun v => v == u) units = some i) :
    List.findIdx? (fun v => v == "day".data) units = some 3 ∧
    DateTimeTruncate_dtype u = some (if i ≤ 3 then DType.date_ else DType.datetime_) ∧
    DateTimeTruncate_dtype "week".data = some DType.date_ ∧
    DateTimeTruncate_dtype "minute".data = some DType.datetime_ := by
  refine ⟨rfl, ?_, rfl, rfl⟩
  unfold DateTimeTruncate_dtype
  rw [h, show List.findIdx? (fun v => v == "day".data) units = some 3 from by decide]

/-- Witness for C5: the canonical unit `"week"` sits at index 2. -/
theorem C5_truncate_dtype_witness :
    List.findIdx? (fun v => v == "week".data) units = some 2 ∧
    DateTimeTruncate_dtype "week".data
      = some (if 2 ≤ 3 then DType.date_ else DType.datetime_) :=
  ⟨by decide, (C5_truncate_dtype "week".data 2 (by decide)).2.1⟩

/-- C6: `visit_Name` rejects every identifier that begins with a double
    underscore with the invalid-name `ValueError`, before either scope is
    consulted — for any `symbol_types` and any value scope. -/
theorem C6_dunder_rejected (dtypes : List (List Char × List Char))
    (scope : List (List Char × Val)) (id : List Char)
    (h : id.take 2 = ['_', '_']) :
    visit dtypes scope (.name id) = .error (.valueError id) := by
  simp only [visit, if_pos h]

/-- Witness for C6: parsing `__secret` fails even though `__secret` is in
    `symbol_types`. -/
theorem C6_dunder_rejected_witness :
    ("__secret".data.take 2 = ['_', '_']) ∧
    visit [("__secret".data, "int64".data)] fixed_scope (.name "__secret".data)
      = .error (.valueError "__secret".data) :=
  ⟨by decide, C6_dunder_rejected [("__secret".data, "int64".data)] fixed_scope
    "__secret".data (by decide)⟩

/-- C7: every canonical unit normalizes to itself. -/
theorem C7_canonical_idempotent (u : List Char) (hu : u ∈ units) :
    normalize_time_unit u = .ok u := by
  simp only [units, List.mem_cons, List.not_mem_nil, or_false] at hu
  rcases hu with rfl | rfl | rfl | rfl | rfl | rfl | rfl | rfl | rfl | rfl <;>
    (rw [norm_of_mem _ (by decide)]; rfl)

/-- Witness for C7: the canonical unit `"year"`. -/
theorem C7_canonical_idempotent_witness :
    "year".data ∈ units ∧ normalize_time_unit "year".data = .ok "year".data :=
  ⟨by decide, C7_canonical_idempotent "year".data (by decide)⟩

/-- C8: after lowercasing and trimming, a token that misses the canonical list
    but hits the alias table returns the mapped canonical unit; every entry of
    the alias table maps to its canonical unit, `"ms"` and `"Milliseconds"`
    normalize to `"millisecond"`, and `"Y"` behaves exactly like `"y"` (both
    give `"year"`). -/
theorem C8_alias_after_lowercase (s v : List Char) (h1 : lowerTrim s ∉ units)
    (h2 : aliasLookup (lowerTrim s) = some v) :
    normalize_time_unit s = .ok v ∧
    (∀ p ∈ unit_aliases, normalize_time_unit p.1 = .ok p.2) ∧
    normalize_time_unit "ms".data = .ok "millisecond".data ∧
    normalize_time_unit "Milliseconds".data = .ok "millisecond".data ∧
    normalize_time_unit "Y".data = .ok "year".data ∧
    normalize_time_unit "y".data = .ok "year".data := by
  refine ⟨norm_of_alias s v h1 h2, ?_, ?_, ?_, ?_, ?_⟩
  · intro p hp
    simp only [unit_aliases, List.mem_cons, List.not_mem_nil, or_false] at hp
    rcases hp with rfl | rfl | rfl | rfl | rfl | rfl | rfl | rfl | rfl <;>
      exact norm_of_alias _ _ (by decide) (by decide)
  · exact norm_of_alias _ _ (by decide) (by decide)
  · rw [norm_of_strip _ (by decide) (by decide) (by decide)]
    have h : rstripS (lowerTrim "Milliseconds".data) = "millisecond".data := by decide
    rw [h, norm_of_mem _ (by decide)]
    rfl
  · exact norm_of_alias _ _ (by decide) (by decide)
  · exact norm_of_alias _ _ (by decide) (by decide)

/-- Witness for C8: the token `"Y"` lowercases to the alias `"y"`. -/
theorem C8_alias_after_lowercase_witness :
    lowerTrim "Y".data ∉ units ∧
    aliasLookup (lowerTrim "Y".data) = some "year".data ∧
    normalize_time_unit "Y".data = .ok "year".data :=
  ⟨by decide, by decide,
    (C8_alias_after_lowercase "Y".data "year".data (by decide) (by decide)).1⟩

/-- C9: a comparison node carrying two or more comparison operators fails the
    `assert len(node.ops) == 1` with an `AssertionError`, whatever the operands
    and their types. -/
theorem C9_chained_comparison_rejected (dtypes : List (List Char × List Char))
    (scope : List (List Char × Val)) (l : PyAST) (ops : List CmpK)
    (comparators : List PyAST) (h : 2 ≤ ops.length) :
    visit dtypes scope (.compare l ops comparators) = .error .assertionError := by
  match ops, h with
  | o1 :: o2 :: rest, _ => rfl

/-- Witness for C9: the chained comparison `a < b < c`. -/
theorem C9_chained_comparison_rejected_witness :
    2 ≤ [CmpK.ltK, CmpK.ltK].length ∧
    visit [("a".data, "int64".data), ("b".data, "int64".data), ("c".data, "int64".data)]
        fixed_scope
        (.compare (.name "a".data) [.ltK, .ltK] [.name "b".data, .name "c".data])
      = .error .assertionError :=
  ⟨by decide, C9_chained_comparison_rejected _ fixed_scope _ _ _ (by decide)⟩

/-- C10: `visit_UnaryOp` on a numeric literal computes
    `-1 * isinstance(op, ast.USub) * n`, so any unary operator other than
    `USub` (unary plus, `not`, `~`) folds the literal to `0`, and `USub`
    yields `-n`. -/
theorem C10_unary_fold (dtypes : List (List Char × List Char))
    (scope : List (List Char × Val)) (op : UOpK) (n : Int)
    (h : op ≠ .uSubK) :
    visit dtypes scope (.unaryOp op (.num n)) = .ok (.num 0) ∧
    visit dtypes scope (.unaryOp .uSubK (.num n)) = .ok (.num (-n)) := by
  refine ⟨?_, rfl⟩
  cases op with
  | uSubK => exact absurd rfl h
  | uAddK => rfl
  | notK => rfl
  | invertK => rfl

/-- Witness for C10: `+5` (unary plus on the literal `5`) parses to `0`, while
    `-5` parses to `-5`. -/
theorem C10_unary_fold_witness :
    (UOpK.uAddK ≠ UOpK.uSubK) ∧
    visit [] fixed_scope (.unaryOp .uAddK (.num 5)) = .ok (.num 0) ∧
    visit [] fixed_scope (.unaryOp .uSubK (.num 5)) = .ok (.num (-5)) :=
  ⟨by decide, (C10_unary_fold [] fixed_scope .uAddK 5 (by decide)).1,
    (C10_unary_fold [] fixed_scope .uAddK 5 (by decide)).2⟩
